import Mathlib

/-!
Verification of the `alchemical_storage` library: a shallow embedding of the
statement-visitor mapping engine (`FilterMap`, `OrderByMap`, `NullFilterMap`,
`JoinMap`, `PaginationMap`) and of `DatabaseStorage`, together with theorems
settling the specification's claims about them.

Queries (`sqlalchemy.Select` values) are modelled symbolically as a record of
where-clauses, order-by expressions, joins, limit and offset; each builder call
(`where`, `order_by`, `join`, `limit`, `offset`) is a pure record update, as in
SQLAlchemy where every builder call returns a new immutable statement.
Python modules / model classes are modelled as a tree of named members
(`NsObj`), with `getattr` as member lookup.  Parameter bags are association
lists with unique keys (Python dicts), iterated in insertion order.
-/

deriving instance DecidableEq for Except

namespace AlchemicalStorage

/-- A scalar attribute of a Python object (used for pagination page
descriptors, whose fields are plain scalars). -/
inductive Scalar where
  | sstr (s : String)
  | sint (n : Int)
  | snone
deriving DecidableEq

/-- A Python value as it appears in parameter bags and entity fields:
a string, an integer, `None`, or an object with named scalar fields. -/
inductive Value where
  | vstr (s : String)
  | vint (n : Int)
  | vnone
  | vobj (fields : List (String × Scalar))
deriving DecidableEq

/-- Injection of scalars into values (reading an attribute off an object
yields the scalar as a plain value). -/
def Scalar.toValue : Scalar → Value
  | .sstr s => .vstr s
  | .sint n => .vint n
  | .snone => .vnone

/-- Python `str(value)`, as used in error-message interpolation. -/
def Value.pystr : Value → String
  | .vstr s => s
  | .vint n => toString n
  | .vnone => "None"
  | .vobj _ => "<object>"

/-- A Python module / model class / column handle: either an opaque leaf
(a column or other attribute, identified by name) or an object with named
members.  `getattr` is member lookup; leaves have no members. -/
inductive NsObj where
  | atom (name : String)
  | mnil
  | mcons (key : String) (val : NsObj) (rest : NsObj)
deriving DecidableEq

/-- Python `getattr(obj, name)`: `none` models `AttributeError`. -/
def NsObj.getattr : NsObj → String → Option NsObj
  | .atom _, _ => none
  | .mnil, _ => none
  | .mcons k v rest, s => if k = s then some v else rest.getattr s

/-- Python `str.split(sep)` for a single-character separator, on the
character list of the string (`"".split(sep) == [""]`). -/
def splitChars (sep : Char) : List Char → List (List Char)
  | [] => [[]]
  | c :: cs =>
    match splitChars sep cs with
    | [] => [[]]
    | h :: t => if c = sep then [] :: h :: t else (c :: h) :: t

/-- Python `str.split(sep)` for a single-character separator (the source only
ever splits on `"."` and `","`). -/
def pySplit (sep : Char) (s : String) : List String :=
  (splitChars sep s.toList).map (fun cs => String.mk cs)

/-- Sequential attribute lookup of a dotted path against a namespace:
the resolution loop shared by `FilterMap.__init__`, `NullFilterMap.__init__`
and `JoinMap.__init__` (`for child in attr.split("."): ... getattr ...`). -/
def resolveAttr (module : NsObj) (path : String) : Option NsObj :=
  go module (pySplit '.' path)
where
  go : NsObj → List String → Option NsObj
    | obj, [] => some obj
    | obj, seg :: rest =>
      match obj.getattr seg with
      | some obj2 => go obj2 rest
      | none => none

/-- A comparison operator from Python's `operator` module, as configured in a
`FilterMap` (`operator.eq` is the default; `custom` stands for any other
caller-supplied binary operator, identified by name). -/
inductive Op where
  | eq
  | ne
  | lt
  | le
  | gt
  | ge
  | custom (name : String)
deriving DecidableEq

/-- A where-clause predicate of a query: a comparison of a resolved attribute
against a supplied value, or an `IS NULL` / `IS NOT NULL` test. -/
inductive Pred where
  | cmp (op : Op) (attr : NsObj) (value : Value)
  | isNull (attr : NsObj)
  | isNotNull (attr : NsObj)
deriving DecidableEq

/-- An order-by target configured in an `OrderByMap`: a resolved column or a
plain label string (the non-dotted configuration case). -/
inductive OrderKey where
  | col (attr : NsObj)
  | label (s : String)
deriving DecidableEq

/-- A sort expression as passed to `Select.order_by`: either the bare key
(ascending, SQL default) or `sqlalchemy.desc` applied to the key. -/
inductive SortExpr where
  | asc (k : OrderKey)
  | desc (k : OrderKey)
deriving DecidableEq

/-- A symbolic `sqlalchemy.Select` statement: the clauses accumulated by the
builder calls the visitors make.  `joins` records each `Select.join` call as
the resolved join target plus the verbatim extra positional arguments. -/
structure Query where
  whereClauses : List Pred
  orderBys : List SortExpr
  joins : List (NsObj × List String)
  limit : Option Value
  offset : Option Value
deriving DecidableEq

/-- `sqlalchemy.select(entity)`: the base statement, with no clauses. -/
def Query.select : Query := ⟨[], [], [], none, none⟩

/-- `Select.where(*preds)` adds the given predicates conjunctively. -/
def Query.addWhere (q : Query) (ps : List Pred) : Query :=
  { q with whereClauses := q.whereClauses ++ ps }

/-- `Select.order_by(*exprs)` appends sort expressions in order. -/
def Query.addOrderBy (q : Query) (es : List SortExpr) : Query :=
  { q with orderBys := q.orderBys ++ es }

/-- `Select.join(target, *on)` appends one join. -/
def Query.addJoin (q : Query) (j : NsObj × List String) : Query :=
  { q with joins := q.joins ++ [j] }

/-- `Select.limit(n)` sets the limit. -/
def Query.setLimit (q : Query) (v : Value) : Query :=
  { q with limit := some v }

/-- `Select.offset(n)` sets the offset. -/
def Query.setOffset (q : Query) (v : Value) : Query :=
  { q with offset := some v }

/-- A parameter bag: a Python dict, modelled as an association list iterated
in insertion order; keys are unique (`List.Nodup` is assumed where it
matters). -/
abbrev Params := List (String × Value)

/-- Dict / association-list lookup by key. -/
def lookupKey {α : Type} : List (String × α) → String → Option α
  | [], _ => none
  | (k, v) :: rest, key => if k = key then some v else lookupKey rest key

/-- The keys of a dict, in insertion order. -/
def keysOf {α : Type} (l : List (String × α)) : List String :=
  l.map Prod.fst

/-- The exceptions the library can raise on the paths modelled here. -/
inductive Exc where
  | notFound
  | conflict
  | orderByException (msg : String)
  | nullFilterException (msg : String)
  | typeError (msg : String)
  | attributeError (msg : String)
deriving DecidableEq

/-! ## FilterMap (`alchemical_storage/filter/filter.py`) -/

/-- A value of the `filters` configuration dict passed to `FilterMap`:
either a bare attribute path (comparison defaults to `operator.eq`) or a
`(attribute_path, operator)` tuple. -/
inductive FilterExpr where
  | attr (path : String)
  | attrOp (path : String) (op : Op)
deriving DecidableEq

/-- The path component of a `FilterExpr`. -/
def FilterExpr.path : FilterExpr → String
  | .attr p => p
  | .attrOp p _ => p

/-- The operator component of a `FilterExpr` (`operator.eq` when absent). -/
def FilterExpr.op : FilterExpr → Op
  | .attr _ => Op.eq
  | .attrOp _ o => o

/-- A constructed `FilterMap`: each configured key holds the stored closure
`functools.partial(op_, get_by)`, i.e. the operator together with the
resolved attribute. -/
structure FilterMap where
  filters : List (String × (Op × NsObj))
deriving DecidableEq

/-- The constructor loop shared by the mapping classes: process the
configuration entries in order, failing (raising) as soon as one entry fails
to resolve. -/
def resolveEach {α β : Type} (f : α → Option β) : List α → Option (List β)
  | [] => some []
  | x :: xs =>
    match f x with
    | some y => (resolveEach f xs).map (fun ys => y :: ys)
    | none => none

/-- Resolution of one `FilterMap` configuration entry: resolve the dotted
path, pair the operator (default `operator.eq`) with the resolved attribute
(`functools.partial(op_, get_by)`). -/
def resolveFilterEntry (module : NsObj) (kv : String × FilterExpr) :
    Option (String × (Op × NsObj)) :=
  (resolveAttr module kv.2.path).map (fun a => (kv.1, (kv.2.op, a)))

/-- The resolution loop of `FilterMap.__init__` over the configuration dict;
`none` models the constructor raising `AttributeError` on an unresolvable
path. -/
def resolveFilterCfg (module : NsObj)
    (cfg : List (String × FilterExpr)) :
    Option (List (String × (Op × NsObj))) :=
  resolveEach (resolveFilterEntry module) cfg

/-- `FilterMap.__init__`: resolve every configured path at construction
time. -/
def FilterMap.make (module : NsObj) (filters : List (String × FilterExpr)) :
    Option FilterMap :=
  (resolveFilterCfg module filters).map (fun fs => ⟨fs⟩)

/-- `FilterMap._generate_whereclauses`: one predicate per bag entry whose key
is configured, in bag order; unconfigured keys are skipped. -/
def FilterMap.generate_whereclauses (fm : FilterMap) (given_filters : Params) :
    List Pred :=
  given_filters.filterMap (fun kv =>
    (lookupKey fm.filters kv.1).map (fun oa => Pred.cmp oa.1 oa.2 kv.2))

/-- `FilterMap.visit_statement`. -/
def FilterMap.visit_statement (fm : FilterMap) (statement : Query)
    (params : Params) : Query :=
  statement.addWhere (fm.generate_whereclauses params)

/-! ## OrderByMap -/

/-- A constructed `OrderByMap`. -/
structure OrderByMap where
  order_by_attributes : List (String × OrderKey)
deriving DecidableEq

/-- Resolution of one `OrderByMap` column string: a dotted column is
unpacked as exactly `model.attr` and resolved by two `getattr` calls (a
column with more than one dot makes the unpacking itself raise); a
non-dotted string is kept verbatim as a label. -/
def resolveOrderColumn (module : NsObj) (column : String) : Option OrderKey :=
  if column.toList.contains '.' then
    match pySplit '.' column with
    | [model, model_attr] =>
      match module.getattr model with
      | some m => (m.getattr model_attr).map (fun col => OrderKey.col col)
      | none => none
    | _ => none
  else some (.label column)

/-- The resolution loop of `OrderByMap.__init__`. -/
def resolveOrderByCfg (module : NsObj) (cfg : List (String × String)) :
    Option (List (String × OrderKey)) :=
  resolveEach (fun kv => (resolveOrderColumn module kv.2).map (fun k => (kv.1, k))) cfg

/-- `OrderByMap.__init__`. -/
def OrderByMap.make (module : NsObj) (cfg : List (String × String)) :
    Option OrderByMap :=
  (resolveOrderByCfg module cfg).map (fun rs => ⟨rs⟩)

/-- One token of an `order_by` value: `attr.startswith("-")` requests
descending order and the `-` is stripped (`attr[1:]`) before lookup. -/
def parseToken (tok : String) : Bool × String :=
  match tok.toList with
  | '-' :: rest => (true, String.mk rest)
  | _ => (false, tok)

/-- `OrderByMap._generate_order_by`: process the comma-separated tokens left
to right; an unknown token raises `OrderByException`.  The generator is fully
consumed by the `*`-unpacking in `statement.order_by(*gen)` before `order_by`
is called, so an error means no expression at all is applied. -/
def OrderByMap.generate_order_by (m : OrderByMap) :
    List String → Except Exc (List SortExpr)
  | [] => .ok []
  | tok :: rest =>
    let (isDesc, attr) := parseToken tok
    match lookupKey m.order_by_attributes attr with
    | some k =>
      (m.generate_order_by rest).map (fun es =>
        (if isDesc then SortExpr.desc k else SortExpr.asc k) :: es)
    | none => .error (.orderByException ("Unknown order_by attribute: " ++ attr))

/-- `OrderByMap.visit_statement`: pass through when `order_by` is absent from
the bag (its value must be a string, as in `str.split`). -/
def OrderByMap.visit_statement (m : OrderByMap) (statement : Query)
    (params : Params) : Except Exc Query :=
  match lookupKey params "order_by" with
  | none => .ok statement
  | some (.vstr s) =>
    (m.generate_order_by (pySplit ',' s)).map statement.addOrderBy
  | some _ => .error (.typeError "order_by value has no split attribute")

/-! ## NullFilterMap -/

/-- A constructed `NullFilterMap`. -/
structure NullFilterMap where
  filters : List (String × NsObj)
  null_identifiers : String × String
deriving DecidableEq

/-- The resolution loop of `NullFilterMap.__init__` (same path loop as
`FilterMap`). -/
def resolveNullFilterCfg (module : NsObj) (cfg : List (String × String)) :
    Option (List (String × NsObj)) :=
  resolveEach (fun kv => (resolveAttr module kv.2).map (fun a => (kv.1, a))) cfg

/-- `NullFilterMap.__init__` (with explicit `null_identifiers`, whose default
in the source is `("null", "not-null")`). -/
def NullFilterMap.make (module : NsObj) (filters : List (String × String))
    (null_identifiers : String × String) : Option NullFilterMap :=
  (resolveNullFilterCfg module filters).map (fun fs => ⟨fs, null_identifiers⟩)

/-- `NullFilterMap._generate_where_clauses`: for each configured key in the
bag, the value must equal one of the two sentinels, else a
`NullFilterException` naming value and key is raised.  As with `OrderByMap`
the generator is consumed before `where` is applied. -/
def NullFilterMap.generate_where_clauses (m : NullFilterMap) :
    Params → Except Exc (List Pred)
  | [] => .ok []
  | (attr, filtered_by) :: rest =>
    match lookupKey m.filters attr with
    | none => m.generate_where_clauses rest
    | some col =>
      if filtered_by = Value.vstr m.null_identifiers.1 then
        (m.generate_where_clauses rest).map (fun ps => Pred.isNull col :: ps)
      else if filtered_by = Value.vstr m.null_identifiers.2 then
        (m.generate_where_clauses rest).map (fun ps => Pred.isNotNull col :: ps)
      else
        .error (.nullFilterException
          ("Unknown filter value: '" ++ filtered_by.pystr ++ "' for `"
            ++ attr ++ "`"))

/-- `NullFilterMap.visit_statement`. -/
def NullFilterMap.visit_statement (m : NullFilterMap) (statement : Query)
    (params : Params) : Except Exc Query :=
  (m.generate_where_clauses params).map statement.addWhere

/-! ## JoinMap (`alchemical_storage/join.py`) -/

/-- A value of the `joins` configuration dict passed to `JoinMap`: the join
target path alone, or a tuple whose first element is the path and whose
remaining elements are kept verbatim as the join-on arguments. -/
inductive JoinExpr where
  | target (path : String)
  | targetOn (path : String) (extra : List String)
deriving DecidableEq

/-- The path component of a `JoinExpr`. -/
def JoinExpr.path : JoinExpr → String
  | .target p => p
  | .targetOn p _ => p

/-- The extra join-on arguments of a `JoinExpr`. -/
def JoinExpr.extra : JoinExpr → List String
  | .target _ => []
  | .targetOn _ e => e

/-- A constructed `JoinMap`: trigger-parameter tuples paired with the
resolved join target and the verbatim extra arguments, in configuration
order. -/
structure JoinMap where
  joins : List (List String × (NsObj × List String))
deriving DecidableEq

/-- The resolution loop of `JoinMap.__init__` (same path loop as
`FilterMap`, applied to the first element of each join specification). -/
def resolveJoinCfg (module : NsObj) (cfg : List (List String × JoinExpr)) :
    Option (List (List String × (NsObj × List String))) :=
  resolveEach (fun aj => (resolveAttr module aj.2.path).map
    (fun a => (aj.1, (a, aj.2.extra)))) cfg

/-- `JoinMap.__init__`. -/
def JoinMap.make (module : NsObj) (joins : List (List String × JoinExpr)) :
    Option JoinMap :=
  (resolveJoinCfg module joins).map (fun js => ⟨js⟩)

/-- `JoinMap.visit_statement`: in configuration order, apply a join exactly
when the bag's key set intersects its trigger tuple. -/
def JoinMap.visit_statement (jm : JoinMap) (statement : Query)
    (params : Params) : Query :=
  jm.joins.foldl (fun stmt aj =>
    if aj.1.any (fun a => (keysOf params).contains a) then stmt.addJoin aj.2
    else stmt) statement

/-! ## PaginationMap (`alchemical_storage/pagination.py`) -/

/-- Default `getter_func` of `PaginationMap`: Python `getattr` on a page
descriptor object. -/
def objGet (page_params : Value) (attr : String) : Option Value :=
  match page_params with
  | .vobj fields => (lookupKey fields attr).map Scalar.toValue
  | _ => none

/-- A constructed `PaginationMap` (the pluggable `getter_func`, default
`getattr`, returns `none` for `AttributeError`). -/
structure PaginationMap where
  param_name : String
  page_size_attr : String
  first_item_attr : String
  getter : Value → String → Option Value

/-- `PaginationMap.visit_statement`: pass through when the page-descriptor
key is absent; otherwise `statement.limit(size).offset(first)`. -/
def PaginationMap.visit_statement (m : PaginationMap) (statement : Query)
    (params : Params) : Except Exc Query :=
  match lookupKey params m.param_name with
  | none => .ok statement
  | some page_params =>
    match m.getter page_params m.page_size_attr with
    | none => .error (.attributeError m.page_size_attr)
    | some size =>
      match m.getter page_params m.first_item_attr with
      | none => .error (.attributeError m.first_item_attr)
      | some first => .ok ((statement.setLimit size).setOffset first)

/-! ## Statement visitors as a sum, and their composition -/

/-- A `StatementVisitor` as held in a `statement_visitors` list: one of the
five mapping classes.  `visit_statement` lifts each class's method into a
common fallible signature (the pure ones never raise). -/
inductive Visitor where
  | filterV (m : FilterMap)
  | orderByV (m : OrderByMap)
  | nullFilterV (m : NullFilterMap)
  | joinV (m : JoinMap)
  | paginationV (m : PaginationMap)

/-- Dispatch of `visitor.visit_statement(stmt, params)`. -/
def Visitor.visit_statement : Visitor → Query → Params → Except Exc Query
  | .filterV m, q, p => .ok (m.visit_statement q p)
  | .orderByV m, q, p => m.visit_statement q p
  | .nullFilterV m, q, p => m.visit_statement q p
  | .joinV m, q, p => .ok (m.visit_statement q p)
  | .paginationV m, q, p => m.visit_statement q p

/-- The visitor loop `for visitor in self._statement_visitors: stmt =
visitor.visit_statement(stmt, kwargs)`. -/
def applyVisitors : List Visitor → Query → Params → Except Exc Query
  | [], q, _ => .ok q
  | v :: vs, q, p =>
    match v.visit_statement q p with
    | .ok q2 => applyVisitors vs q2 p
    | .error e => .error e

/-! ## Executable store model (the external query engine)

`session.execute` and the SQL engine are external collaborators of the
library; they are modelled concretely so that the storage claims can be
evaluated: a table is a list of rows, a row is a dict of column values, and
executing a query filters by the where-clauses, sorts stably by the order-by
expressions, then applies offset and limit. -/

/-- A persisted row: column name to value. -/
abbrev Entity := List (String × Value)

/-- Evaluation of a configured comparison operator on concrete values
(`custom` operators are caller-supplied black boxes). -/
def evalOp : Op → Value → Value → Bool
  | .eq, a, b => a = b
  | .ne, a, b => a ≠ b
  | .lt, .vint a, .vint b => a < b
  | .le, .vint a, .vint b => a ≤ b
  | .gt, .vint a, .vint b => a > b
  | .ge, .vint a, .vint b => a ≥ b
  | _, _, _ => false

/-- Whether a row satisfies a predicate: attribute handles are leaf columns
looked up by name; an absent or `None` column is SQL `NULL`. -/
def Pred.eval (e : Entity) : Pred → Bool
  | .cmp op (.atom n) v =>
    match lookupKey e n with
    | some fv => evalOp op fv v
    | none => false
  | .cmp _ _ _ => false
  | .isNull (.atom n) =>
    match lookupKey e n with
    | some .vnone => true
    | some _ => false
    | none => true
  | .isNull _ => false
  | .isNotNull (.atom n) =>
    match lookupKey e n with
    | some .vnone => false
    | some _ => true
    | none => false
  | .isNotNull _ => false

/-- Comparison of column values for sorting (heterogeneous values compare
equal, leaving their relative order unchanged). -/
def cmpValues : Value → Value → Ordering
  | .vint a, .vint b => compare a b
  | .vstr a, .vstr b => compare a b
  | _, _ => .eq

/-- The column value a sort key reads off a row (labels refer to select
labels, approximated as column names; missing columns are `NULL`). -/
def OrderKey.read (e : Entity) : OrderKey → Value
  | .col (.atom n) => (lookupKey e n).getD .vnone
  | .col _ => .vnone
  | .label s => (lookupKey e s).getD .vnone

/-- Row comparison under one sort expression. -/
def SortExpr.cmpRows (s : SortExpr) (e1 e2 : Entity) : Ordering :=
  match s with
  | .asc k => cmpValues (k.read e1) (k.read e2)
  | .desc k => cmpValues (k.read e2) (k.read e1)

/-- Lexicographic row comparison under a sort-expression list. -/
def cmpByOrder : List SortExpr → Entity → Entity → Ordering
  | [], _, _ => .eq
  | s :: rest, e1, e2 =>
    match s.cmpRows e1 e2 with
    | .eq => cmpByOrder rest e1 e2
    | o => o

/-- Stable insertion into a sorted row list. -/
def insertRow (os : List SortExpr) (e : Entity) : List Entity → List Entity
  | [] => [e]
  | x :: xs =>
    if cmpByOrder os e x = Ordering.gt then x :: insertRow os e xs
    else e :: x :: xs

/-- Stable sort of rows by a sort-expression list. -/
def sortRows (os : List SortExpr) : List Entity → List Entity
  | [] => []
  | e :: es => insertRow os e (sortRows os es)

/-- Executing a query against a table: filter, sort, offset, limit
(non-integer limit/offset values are ignored, as the engine is out of
scope for them). -/
def execQuery (db : List Entity) (q : Query) : List Entity :=
  let rows := db.filter (fun e => q.whereClauses.all (Pred.eval e))
  let sorted := sortRows q.orderBys rows
  let afterOffset :=
    match q.offset with
    | some (.vint n) => sorted.drop n.toNat
    | _ => sorted
  match q.limit with
  | some (.vint n) => afterOffset.take n.toNat
  | _ => afterOffset

/-! ## DatabaseStorage (`alchemical_storage/storage/storage.py`) -/

/-- An identity as supplied by a caller: a non-iterable scalar (strings and
bytes count as scalars here, as in the decorator's `isinstance` test) or a
sequence of components. -/
inductive Identity where
  | scalar (v : Value)
  | seq (vs : List Value)
deriving DecidableEq

/-- The `_convert_identity` decorator's normalization: wrap a scalar into a
1-tuple, convert any other iterable to a tuple of the same components. -/
def convertIdentity : Identity → List Value
  | .scalar v => [v]
  | .seq vs => vs

/-- Python dict update `a[k] = v` inside `{**a, **b}`: replace in place if
the key exists, else append. -/
def dictInsert (a : Entity) (k : String) (v : Value) : Entity :=
  if (keysOf a).contains k then
    a.map (fun kv => if kv.1 = k then (k, v) else kv)
  else a ++ [(k, v)]

/-- Python `{**a, **b}`. -/
def dictMerge (a b : Entity) : Entity :=
  b.foldl (fun acc kv => dictInsert acc kv.1 kv.2) a

/-- The external marshmallow schema load, modelled as direct construction of
a row from the data dict (the schema layer is an external collaborator). -/
def schemaLoad (d : Entity) : Entity := d

/-- Replace the first occurrence of a row (the session-tracked instance a
partial load mutated, persisted by `flush`). -/
def replaceFirst : List Entity → Entity → Entity → List Entity
  | [], _, _ => []
  | e :: rest, old, e' => if e = old then e' :: rest else e :: replaceFirst rest old e'

/-- Remove the first occurrence of a row (`session.delete`). -/
def removeFirst : List Entity → Entity → List Entity
  | [], _ => []
  | e :: rest, old => if e = old then rest else e :: removeFirst rest old

/-- A `DatabaseStorage` instance: the model class (an `NsObj` whose members
are its columns), the primary-key attribute names `self._attr`, and the
configured statement visitors.  The session is passed explicitly as the
table `db`. -/
structure DatabaseStorage where
  entity : NsObj
  pk : List String
  statement_visitors : List Visitor

/-- The primary-key where-clauses `getattr(self.entity, _attr) == id` zipped
over the identity components; a missing column raises `AttributeError`. -/
def DatabaseStorage.pkPreds (st : DatabaseStorage) (idt : List Value) :
    Except Exc (List Pred) :=
  go (st.pk.zip idt)
where
  go : List (String × Value) → Except Exc (List Pred)
    | [] => .ok []
    | (a, v) :: rest =>
      match st.entity.getattr a with
      | some col => (go rest).map (fun ps => Pred.cmp Op.eq col v :: ps)
      | none => .error (.attributeError a)

/-- `DatabaseStorage.__contains__`: a `count` query on the first primary-key
column, filtered by the identity equalities — statement visitors are not
applied here. -/
def DatabaseStorage.containsIdentity (st : DatabaseStorage)
    (db : List Entity) (identity : Identity) : Except Exc Bool :=
  let idt := convertIdentity identity
  match st.pk with
  | [] => .error (.attributeError "IndexError: list index out of range")
  | k0 :: _ =>
    match st.entity.getattr k0 with
    | none => .error (.attributeError k0)
    | some _ =>
      match st.pkPreds idt with
      | .error e => .error e
      | .ok preds =>
        .ok (!(db.filter (fun e => preds.all (Pred.eval e))).isEmpty)

/-- `DatabaseStorage.get`: select by the identity equalities, apply every
configured statement visitor with the keyword-argument bag, execute, and
take the first row; no row raises `NotFoundError`. -/
def DatabaseStorage.get (st : DatabaseStorage) (db : List Entity)
    (identity : Identity) (params : Params) : Except Exc Entity :=
  let idt := convertIdentity identity
  match st.pkPreds idt with
  | .error e => .error e
  | .ok preds =>
    match applyVisitors st.statement_visitors (Query.select.addWhere preds) params with
    | .error e => .error e
    | .ok stmt =>
      match (execQuery db stmt).head? with
      | some model => .ok model
      | none => .error .notFound

/-- `DatabaseStorage.put`: existence check first (`ConflictError` if the
identity is present), then merge the primary-key components into the data,
load and persist.  The returned list is the table after the call. -/
def DatabaseStorage.put (st : DatabaseStorage) (db : List Entity)
    (identity : Identity) (data : Entity) : Except Exc Entity × List Entity :=
  let idt := convertIdentity identity
  match st.containsIdentity db (.seq idt) with
  | .error e => (.error e, db)
  | .ok true => (.error .conflict, db)
  | .ok false =>
    let new0 := schemaLoad (dictMerge data (st.pk.zip idt))
    (.ok new0, db ++ [new0])

/-- `DatabaseStorage.patch`: existence check first (`NotFoundError` if the
identity is absent), then partial-load the data into the fetched instance,
flush, and re-fetch. -/
def DatabaseStorage.patch (st : DatabaseStorage) (db : List Entity)
    (identity : Identity) (data : Entity) : Except Exc Entity × List Entity :=
  let idt := convertIdentity identity
  match st.containsIdentity db (.seq idt) with
  | .error e => (.error e, db)
  | .ok false => (.error .notFound, db)
  | .ok true =>
    match st.get db (.seq idt) [] with
    | .error e => (.error e, db)
    | .ok inst =>
      let inst2 := dictMerge inst data
      let db2 := replaceFirst db inst inst2
      (st.get db2 (.seq idt) [], db2)

/-- `DatabaseStorage.delete`: existence check first (`NotFoundError` if the
identity is absent), then fetch the instance, delete it and return it. -/
def DatabaseStorage.delete (st : DatabaseStorage) (db : List Entity)
    (identity : Identity) : Except Exc Entity × List Entity :=
  let idt := convertIdentity identity
  match st.containsIdentity db (.seq idt) with
  | .error e => (.error e, db)
  | .ok false => (.error .notFound, db)
  | .ok true =>
    match st.get db (.seq idt) [] with
    | .error e => (.error e, db)
    | .ok model => (.ok model, removeFirst db model)

/-! ## Concrete fixtures (used by witnesses and counterexamples) -/

/-- A concrete model class with three columns, mirroring the test models. -/
def gameModel : NsObj :=
  .mcons "type" (.atom "type")
    (.mcons "played_on" (.atom "played_on")
      (.mcons "slug" (.atom "slug") .mnil))

/-- A concrete module namespace exposing `Game`. -/
def exModule : NsObj := .mcons "Game" gameModel .mnil

/-- A concrete storage over `gameModel` with primary key `slug` and no
visitors. -/
def stEx : DatabaseStorage := ⟨gameModel, ["slug"], []⟩

/-- A one-row table. -/
def dbEx : List Entity := [[("slug", .vstr "g1"), ("type", .vstr "A")]]

/-- A concrete `FilterMap` configuration (one bare path, one path with an
explicit operator). -/
def cfgEx : List (String × FilterExpr) :=
  [("game_type", .attr "Game.type"), ("starting_at", .attrOp "Game.played_on" Op.ge)]

/-- The `FilterMap` built from `cfgEx` over `exModule`. -/
def fmEx : FilterMap :=
  ⟨[("game_type", (Op.eq, .atom "type")), ("starting_at", (Op.ge, .atom "played_on"))]⟩

/-- A concrete parameter bag with one configured and one unconfigured key. -/
def pEx : Params := [("game_type", .vstr "A"), ("unknown", .vint 5)]

/-- A concrete `OrderByMap` with a resolved column and a plain label. -/
def omEx : OrderByMap := ⟨[("a", .col (.atom "type")), ("b", .label "blabel")]⟩

/-- A concrete `NullFilterMap` with the default sentinels. -/
def nmEx : NullFilterMap := ⟨[("f", .atom "played_on")], ("null", "not-null")⟩

/-- A concrete `JoinMap` with a single trigger parameter. -/
def jmEx : JoinMap := ⟨[(["related_attr"], (.atom "Rel", []))]⟩

/-- A concrete `PaginationMap` with the default `getattr` accessor. -/
def pagEx : PaginationMap := ⟨"page", "size", "first", objGet⟩

/-- `stEx` with a `FilterMap` statement visitor configured. -/
def stVEx : DatabaseStorage := ⟨gameModel, ["slug"], [.filterV fmEx]⟩

/-! ## General lemmas -/

theorem lookupKey_eq_none_iff {α : Type} (l : List (String × α)) (k : String) :
    lookupKey l k = none ↔ k ∉ keysOf l := by
  induction l with
  | nil => simp [lookupKey, keysOf]
  | cons kv rest ih =>
    obtain ⟨k1, v1⟩ := kv
    by_cases h : k1 = k
    · subst h
      simp [lookupKey, keysOf]
    · simp [lookupKey, keysOf, h, ih, Ne.symm h]

theorem lookupKey_isSome_iff {α : Type} (l : List (String × α)) (k : String) :
    (lookupKey l k).isSome = true ↔ k ∈ keysOf l := by
  rw [Option.isSome_iff_ne_none, ne_eq, lookupKey_eq_none_iff, not_not]

theorem Query.addWhere_nil (q : Query) : q.addWhere [] = q := by
  simp [Query.addWhere]

theorem Query.addOrderBy_nil (q : Query) : q.addOrderBy [] = q := by
  simp [Query.addOrderBy]

theorem resolveEach_eq_none {α β : Type} (f : α → Option β) (l : List α)
    (x : α) (hx : x ∈ l) (hf : f x = none) : resolveEach f l = none := by
  induction l with
  | nil => cases hx
  | cons y ys ih =>
    rcases List.mem_cons.mp hx with h | h
    · subst h
      simp [resolveEach, hf]
    · cases hfy : f y with
      | none => simp [resolveEach, hfy]
      | some z => simp [resolveEach, hfy, ih h]

theorem resolveEach_some_mem {α β : Type} (f : α → Option β) (l : List α)
    (ys : List β) (h : resolveEach f l = some ys) (x : α) (hx : x ∈ l) :
    ∃ y, f x = some y := by
  induction l generalizing ys with
  | nil => cases hx
  | cons z zs ih =>
    cases hfz : f z with
    | none => simp [resolveEach, hfz] at h
    | some w =>
      simp only [resolveEach, hfz] at h
      cases hrest : resolveEach f zs with
      | none => simp [hrest] at h
      | some ws =>
        rcases List.mem_cons.mp hx with hh | hh
        · exact hh ▸ ⟨w, hfz⟩
        · exact ih ws hrest hh

theorem resolveEach_forall₂ {α β : Type} (f : α → Option β) (l : List α)
    (ys : List β) (h : resolveEach f l = some ys) :
    List.Forall₂ (fun x y => f x = some y) l ys := by
  induction l generalizing ys with
  | nil =>
    simp only [resolveEach] at h
    cases h
    exact List.Forall₂.nil
  | cons z zs ih =>
    cases hfz : f z with
    | none => simp [resolveEach, hfz] at h
    | some w =>
      simp only [resolveEach, hfz] at h
      cases hrest : resolveEach f zs with
      | none => simp [hrest] at h
      | some ws =>
        simp only [hrest, Option.map_some] at h
        cases h
        exact List.Forall₂.cons hfz (ih ws hrest)

theorem resolveFilterCfg_keys (module : NsObj) (cfg : List (String × FilterExpr))
    (fs : List (String × (Op × NsObj))) (h : resolveFilterCfg module cfg = some fs) :
    keysOf fs = keysOf cfg := by
  induction cfg generalizing fs with
  | nil =>
    have hfs : fs = [] := by simpa [resolveFilterCfg, resolveEach] using h.symm
    subst hfs
    rfl
  | cons kv rest ih =>
    obtain ⟨k1, fe1⟩ := kv
    cases hra : resolveAttr module fe1.path with
    | none =>
      simp [resolveFilterCfg, resolveEach, resolveFilterEntry, hra] at h
    | some a1 =>
      simp only [resolveFilterCfg, resolveEach, resolveFilterEntry, hra,
        Option.map_some] at h
      cases hrest : resolveEach (resolveFilterEntry module) rest with
      | none =>
        rw [show resolveEach (fun kv => resolveFilterEntry module kv) rest
              = none from hrest] at h
        simp at h
      | some rs =>
        rw [show resolveEach (fun kv => resolveFilterEntry module kv) rest
              = some rs from hrest] at h
        have hfs : (k1, (fe1.op, a1)) :: rs = fs := by simpa using h
        subst hfs
        simpa [keysOf] using ih rs hrest

theorem resolveFilterCfg_lookup (module : NsObj) (cfg : List (String × FilterExpr))
    (fs : List (String × (Op × NsObj))) (k : String) (fe : FilterExpr)
    (h : resolveFilterCfg module cfg = some fs) (hmem : (k, fe) ∈ cfg)
    (hnd : (keysOf cfg).Nodup) :
    ∃ a, resolveAttr module fe.path = some a ∧ lookupKey fs k = some (fe.op, a) := by
  induction cfg generalizing fs with
  | nil => cases hmem
  | cons kv rest ih =>
    obtain ⟨k1, fe1⟩ := kv
    cases hra : resolveAttr module fe1.path with
    | none =>
      simp [resolveFilterCfg, resolveEach, resolveFilterEntry, hra] at h
    | some a1 =>
      simp only [resolveFilterCfg, resolveEach, resolveFilterEntry, hra,
        Option.map_some] at h
      cases hrest : resolveEach (resolveFilterEntry module) rest with
      | none =>
        rw [show resolveEach (fun kv => resolveFilterEntry module kv) rest
              = none from hrest] at h
        simp at h
      | some rs =>
        rw [show resolveEach (fun kv => resolveFilterEntry module kv) rest
              = some rs from hrest] at h
        have hfs : (k1, (fe1.op, a1)) :: rs = fs := by simpa using h
        subst hfs
        rcases List.mem_cons.mp hmem with hh | hh
        · cases hh
          exact ⟨a1, hra, by simp [lookupKey]⟩
        · have hnd' : (k1 :: keysOf rest).Nodup := hnd
          have hk1 : k1 ∉ keysOf rest := (List.nodup_cons.mp hnd').1
          have hkmem : k ∈ keysOf rest := by
            simp only [keysOf, List.mem_map]
            exact ⟨(k, fe), hh, rfl⟩
          have hne : k1 ≠ k := fun he => hk1 (he ▸ hkmem)
          rcases ih rs hrest hh (List.nodup_cons.mp hnd').2 with ⟨a, ha, hl⟩
          exact ⟨a, ha, by simpa [lookupKey, hne] using hl⟩

theorem joinFold_eq (js : List (List String × (NsObj × List String)))
    (q : Query) (ks : List String) :
    js.foldl (fun stmt aj =>
        if aj.1.any (fun a => ks.contains a) then stmt.addJoin aj.2 else stmt) q
      = { q with joins := q.joins ++
          (js.filter (fun aj => aj.1.any (fun a => ks.contains a))).map Prod.snd } := by
  induction js generalizing q with
  | nil => simp
  | cons aj rest ih =>
    by_cases hc : aj.1.any (fun a => ks.contains a) = true
    · rw [List.foldl_cons, if_pos hc, ih, List.filter_cons, hc]
      simp [Query.addJoin]
    · have hcf : (aj.1.any fun a => ks.contains a) = false := by simpa using hc
      rw [List.foldl_cons, if_neg hc, ih, List.filter_cons, hcf]
      simp

theorem joinMap_visit_eq (jm : JoinMap) (q : Query) (params : Params) :
    jm.visit_statement q params
      = { q with joins := q.joins ++
          (jm.joins.filter (fun aj =>
            aj.1.any (fun a => (keysOf params).contains a))).map Prod.snd } :=
  joinFold_eq jm.joins q (keysOf params)

theorem filterMap_visit_nil_params (fm : FilterMap) (q : Query) :
    fm.visit_statement q [] = q := by
  simp [FilterMap.visit_statement, FilterMap.generate_whereclauses,
    Query.addWhere_nil]

theorem orderByMap_visit_nil_params (m : OrderByMap) (q : Query) :
    m.visit_statement q [] = .ok q := rfl

theorem nullFilterMap_visit_nil_params (m : NullFilterMap) (q : Query) :
    m.visit_statement q [] = .ok q := by
  simp [NullFilterMap.visit_statement, NullFilterMap.generate_where_clauses,
    Query.addWhere_nil, Except.map]

theorem joinMap_visit_nil_params (jm : JoinMap) (q : Query) :
    jm.visit_statement q [] = q := by
  rw [joinMap_visit_eq]
  have hf : jm.joins.filter
      (fun aj => aj.1.any fun a => (keysOf ([] : Params)).contains a) = [] := by
    apply List.filter_eq_nil_iff.mpr
    intro aj _
    simp [keysOf]
  rw [hf]
  simp

theorem paginationMap_visit_nil_params (m : PaginationMap) (q : Query) :
    m.visit_statement q [] = .ok q := rfl

theorem visitor_visit_nil_params (v : Visitor) (q : Query) :
    v.visit_statement q [] = .ok q := by
  cases v with
  | filterV m => simp [Visitor.visit_statement, filterMap_visit_nil_params]
  | orderByV m => simp [Visitor.visit_statement, orderByMap_visit_nil_params]
  | nullFilterV m => simp [Visitor.visit_statement, nullFilterMap_visit_nil_params]
  | joinV m => simp [Visitor.visit_statement, joinMap_visit_nil_params]
  | paginationV m => simp [Visitor.visit_statement, paginationMap_visit_nil_params]

theorem applyVisitors_nil_params (vs : List Visitor) (q : Query) :
    applyVisitors vs q [] = .ok q := by
  induction vs with
  | nil => rfl
  | cons v rest ih => simp [applyVisitors, visitor_visit_nil_params, ih]

theorem convertIdentity_norm (i : Identity) :
    convertIdentity (.seq (convertIdentity i)) = convertIdentity i := by
  cases i <;> rfl

theorem containsIdentity_norm (st : DatabaseStorage) (db : List Entity)
    (i : Identity) :
    st.containsIdentity db (.seq (convertIdentity i)) = st.containsIdentity db i := by
  cases i <;> rfl

theorem get_nil_params_of_contains_false (st : DatabaseStorage)
    (db : List Entity) (i : Identity)
    (h : st.containsIdentity db i = .ok false) :
    st.get db i [] = .error .notFound := by
  cases hpk : st.pk with
  | nil => simp [DatabaseStorage.containsIdentity, hpk] at h
  | cons k0 krest =>
    cases hga : st.entity.getattr k0 with
    | none => simp [DatabaseStorage.containsIdentity, hpk, hga] at h
    | some col0 =>
      cases hpp : st.pkPreds (convertIdentity i) with
      | error e => simp [DatabaseStorage.containsIdentity, hpk, hga, hpp] at h
      | ok preds =>
        simp only [DatabaseStorage.containsIdentity, hpk, hga, hpp,
          Except.ok.injEq] at h
        have hemp : db.filter (fun e => preds.all (Pred.eval e)) = [] := by
          rw [← List.isEmpty_iff]
          simpa using h
        simp [DatabaseStorage.get, hpp, applyVisitors_nil_params, execQuery,
          Query.select, Query.addWhere, hemp, sortRows]

theorem generate_order_by_all_mapped (m : OrderByMap) (toks : List String)
    (hall : ∀ tok ∈ toks,
      lookupKey m.order_by_attributes (parseToken tok).2 ≠ none) :
    ∃ es, m.generate_order_by toks = .ok es ∧
      List.Forall₂ (fun tok e =>
        ∃ k, lookupKey m.order_by_attributes (parseToken tok).2 = some k ∧
          e = if (parseToken tok).1 then SortExpr.desc k else SortExpr.asc k)
        toks es := by
  induction toks with
  | nil => exact ⟨[], rfl, List.Forall₂.nil⟩
  | cons tok rest ih =>
    obtain ⟨k, hk⟩ : ∃ k, lookupKey m.order_by_attributes (parseToken tok).2
        = some k := by
      cases hk : lookupKey m.order_by_attributes (parseToken tok).2 with
      | none => exact absurd hk (hall tok (List.mem_cons_self tok rest))
      | some k => exact ⟨k, rfl⟩
    rcases ih (fun t ht => hall t (List.mem_cons_of_mem tok ht)) with ⟨es, hes, hfa⟩
    refine ⟨(if (parseToken tok).1 then SortExpr.desc k else SortExpr.asc k) :: es,
      ?_, List.Forall₂.cons ⟨k, hk, rfl⟩ hfa⟩
    simp [OrderByMap.generate_order_by, hk, hes, Except.map]

theorem generate_order_by_unknown (m : OrderByMap) (toks : List String)
    (hbad : ∃ tok ∈ toks, lookupKey m.order_by_attributes (parseToken tok).2 = none) :
    ∃ t ∈ toks, lookupKey m.order_by_attributes (parseToken t).2 = none ∧
      m.generate_order_by toks
        = .error (.orderByException ("Unknown order_by attribute: "
            ++ (parseToken t).2)) := by
  induction toks with
  | nil => rcases hbad with ⟨_, h, _⟩; cases h
  | cons tok rest ih =>
    cases hk : lookupKey m.order_by_attributes (parseToken tok).2 with
    | none =>
      exact ⟨tok, List.mem_cons_self tok rest, hk,
        by simp [OrderByMap.generate_order_by, hk]⟩
    | some k =>
      have hbad' : ∃ t ∈ rest,
          lookupKey m.order_by_attributes (parseToken t).2 = none := by
        rcases hbad with ⟨t, ht, htl⟩
        rcases List.mem_cons.mp ht with hh | hh
        · rw [hh] at htl
          rw [htl] at hk
          cases hk
        · exact ⟨t, hh, htl⟩
      rcases ih hbad' with ⟨t, ht, htl, herr⟩
      exact ⟨t, List.mem_cons_of_mem tok ht, htl,
        by simp [OrderByMap.generate_order_by, hk, herr, Except.map]⟩

theorem generate_where_clauses_all_sentinels (m : NullFilterMap) (params : Params)
    (hsen : ∀ k v, (k, v) ∈ params → lookupKey m.filters k ≠ none →
      v = .vstr m.null_identifiers.1 ∨ v = .vstr m.null_identifiers.2) :
    m.generate_where_clauses params
      = .ok (params.filterMap (fun kv =>
          (lookupKey m.filters kv.1).map (fun col =>
            if kv.2 = .vstr m.null_identifiers.1 then Pred.isNull col
            else Pred.isNotNull col))) := by
  induction params with
  | nil => rfl
  | cons kv rest ih =>
    obtain ⟨attr, filtered_by⟩ := kv
    have ih' := ih (fun k v hm hc => hsen k v (List.mem_cons_of_mem _ hm) hc)
    cases hl : lookupKey m.filters attr with
    | none =>
      simp [NullFilterMap.generate_where_clauses, hl, ih', List.filterMap_cons]
    | some col =>
      rcases hsen attr filtered_by (List.mem_cons_self _ _) (by simp [hl])
          with hv | hv
      · simp [NullFilterMap.generate_where_clauses, hl, hv, ih',
          List.filterMap_cons, Except.map]
      · by_cases hv1 : filtered_by = .vstr m.null_identifiers.1
        · simp [NullFilterMap.generate_where_clauses, hl, hv1, ih',
            List.filterMap_cons, Except.map]
        · simp only [NullFilterMap.generate_where_clauses, hl, hv, hv1, ih',
            List.filterMap_cons, Except.map]
          split <;> simp_all

theorem generate_where_clauses_bad_value (m : NullFilterMap) (params : Params)
    (hbad : ∃ k v, (k, v) ∈ params ∧ lookupKey m.filters k ≠ none ∧
      v ≠ .vstr m.null_identifiers.1 ∧ v ≠ .vstr m.null_identifiers.2) :
    ∃ k v, (k, v) ∈ params ∧ lookupKey m.filters k ≠ none ∧
      v ≠ .vstr m.null_identifiers.1 ∧ v ≠ .vstr m.null_identifiers.2 ∧
      m.generate_where_clauses params
        = .error (.nullFilterException
            ("Unknown filter value: '" ++ v.pystr ++ "' for `" ++ k ++ "`")) := by
  induction params with
  | nil => rcases hbad with ⟨_, _, h, _⟩; cases h
  | cons kv rest ih =>
    obtain ⟨attr, filtered_by⟩ := kv
    cases hl : lookupKey m.filters attr with
    | none =>
      have hbad' : ∃ k v, (k, v) ∈ rest ∧ lookupKey m.filters k ≠ none ∧
          v ≠ .vstr m.null_identifiers.1 ∧ v ≠ .vstr m.null_identifiers.2 := by
        rcases hbad with ⟨k, v, hm, hc, h1, h2⟩
        rcases List.mem_cons.mp hm with hh | hh
        · cases hh
          exact absurd hl hc
        · exact ⟨k, v, hh, hc, h1, h2⟩
      rcases ih hbad' with ⟨k, v, hm, hc, h1, h2, herr⟩
      exact ⟨k, v, List.mem_cons_of_mem _ hm, hc, h1, h2,
        by simp [NullFilterMap.generate_where_clauses, hl, herr]⟩
    | some col =>
      by_cases hv1 : filtered_by = .vstr m.null_identifiers.1
      · have hbad' : ∃ k v, (k, v) ∈ rest ∧ lookupKey m.filters k ≠ none ∧
            v ≠ .vstr m.null_identifiers.1 ∧ v ≠ .vstr m.null_identifiers.2 := by
          rcases hbad with ⟨k, v, hm, hc, h1, h2⟩
          rcases List.mem_cons.mp hm with hh | hh
          · cases hh
            exact absurd hv1 h1
          · exact ⟨k, v, hh, hc, h1, h2⟩
        rcases ih hbad' with ⟨k, v, hm, hc, h1, h2, herr⟩
        exact ⟨k, v, List.mem_cons_of_mem _ hm, hc, h1, h2,
          by simp [NullFilterMap.generate_where_clauses, hl, hv1, herr, Except.map]⟩
      · by_cases hv2 : filtered_by = .vstr m.null_identifiers.2
        · have hbad' : ∃ k v, (k, v) ∈ rest ∧ lookupKey m.filters k ≠ none ∧
              v ≠ .vstr m.null_identifiers.1 ∧ v ≠ .vstr m.null_identifiers.2 := by
            rcases hbad with ⟨k, v, hm, hc, h1, h2⟩
            rcases List.mem_cons.mp hm with hh | hh
            · cases hh
              exact absurd hv2 h2
            · exact ⟨k, v, hh, hc, h1, h2⟩
          rcases ih hbad' with ⟨k, v, hm, hc, h1, h2, herr⟩
          exact ⟨k, v, List.mem_cons_of_mem _ hm, hc, h1, h2,
            by simp [NullFilterMap.generate_where_clauses, hl, hv1, hv2, herr,
              Except.map]⟩
        · exact ⟨attr, filtered_by, List.mem_cons_self _ _, by simp [hl], hv1, hv2,
            by simp [NullFilterMap.generate_where_clauses, hl, hv1, hv2]⟩

theorem contains_iff_mem {α : Type} [BEq α] [LawfulBEq α] (l : List α) (a : α) :
    l.contains a = true ↔ a ∈ l :=
  List.elem_iff

theorem length_filterMap_isSome {α β : Type} (f : α → Option β) (l : List α) :
    (l.filterMap f).length = (l.filter (fun x => (f x).isSome)).length := by
  induction l with
  | nil => rfl
  | cons x xs ih =>
    cases hf : f x <;> simp [List.filterMap_cons, List.filter_cons, hf, ih]

theorem generate_whereclauses_length (fm : FilterMap) (params : Params) :
    (fm.generate_whereclauses params).length
      = (params.filter (fun kv => decide (kv.1 ∈ keysOf fm.filters))).length := by
  rw [FilterMap.generate_whereclauses, length_filterMap_isSome]
  congr 1
  apply List.filter_congr
  intro kv _
  cases hl : lookupKey fm.filters kv.1 with
  | none =>
    have hm : kv.1 ∉ keysOf fm.filters := (lookupKey_eq_none_iff _ _).mp hl
    simp [hl, hm]
  | some oa =>
    have hm : kv.1 ∈ keysOf fm.filters := by
      rw [← lookupKey_isSome_iff, hl]
      rfl
    simp [hl, hm]

theorem generate_whereclauses_mem (fm : FilterMap) (params : Params)
    (k : String) (v : Value) (oa : Op × NsObj)
    (hm : (k, v) ∈ params) (hl : lookupKey fm.filters k = some oa) :
    Pred.cmp oa.1 oa.2 v ∈ fm.generate_whereclauses params := by
  rw [FilterMap.generate_whereclauses]
  exact List.mem_filterMap.mpr ⟨(k, v), hm, by simp [hl]⟩

theorem generate_whereclauses_mem_inv (fm : FilterMap) (params : Params)
    (p : Pred) (hp : p ∈ fm.generate_whereclauses params) :
    ∃ k v oa, (k, v) ∈ params ∧ lookupKey fm.filters k = some oa ∧
      p = Pred.cmp oa.1 oa.2 v := by
  rcases List.mem_filterMap.mp hp with ⟨⟨k, v⟩, hm, hf⟩
  cases hl : lookupKey fm.filters k with
  | none => rw [hl] at hf; cases hf
  | some oa =>
    rw [hl] at hf
    simp only [Option.map_some', Option.some.injEq] at hf
    exact ⟨k, v, oa, hm, hl, hf.symm⟩

/-! ## Claim theorems -/

/-- **C7**: For every `JoinMap` and every parameter bag, iterating the
configured (trigger-parameter-set, join-specification) pairs in configuration
order, the join is applied to the query exactly once iff the bag's key set
has a non-empty intersection with that join's trigger set; joins whose
trigger sets are all hit independently are each applied, so multiple joins
may fire in a single visit call.  Nothing else on the query changes. -/
theorem joinMap_applies_triggered_joins_in_order (jm : JoinMap) (q : Query)
    (params : Params) :
    (jm.visit_statement q params).whereClauses = q.whereClauses ∧
    (jm.visit_statement q params).orderBys = q.orderBys ∧
    (jm.visit_statement q params).limit = q.limit ∧
    (jm.visit_statement q params).offset = q.offset ∧
    (jm.visit_statement q params).joins
      = q.joins ++ (jm.joins.filter (fun aj =>
          aj.1.any fun a => (keysOf params).contains a)).map Prod.snd ∧
    (∀ aj ∈ jm.joins,
      ((aj.1.any fun a => (keysOf params).contains a) = true
        ↔ ∃ a ∈ aj.1, a ∈ keysOf params)) := by
  rw [joinMap_visit_eq]
  refine ⟨rfl, rfl, rfl, rfl, rfl, ?_⟩
  intro aj _
  simp [List.any_eq_true, contains_iff_mem]

/-- Witness for **C7** at concrete inputs: a bag containing the trigger
parameter `related_attr` fires `jmEx`'s single join exactly once. -/
theorem joinMap_applies_triggered_joins_in_order_witness :
    (jmEx.visit_statement Query.select [("related_attr", Value.vstr "x")]).whereClauses
        = Query.select.whereClauses ∧
    (jmEx.visit_statement Query.select [("related_attr", Value.vstr "x")]).orderBys
        = Query.select.orderBys ∧
    (jmEx.visit_statement Query.select [("related_attr", Value.vstr "x")]).limit
        = Query.select.limit ∧
    (jmEx.visit_statement Query.select [("related_attr", Value.vstr "x")]).offset
        = Query.select.offset ∧
    (jmEx.visit_statement Query.select [("related_attr", Value.vstr "x")]).joins
        = Query.select.joins ++ (jmEx.joins.filter (fun aj =>
            aj.1.any fun a =>
              (keysOf [("related_attr", Value.vstr "x")]).contains a)).map Prod.snd ∧
    (∀ aj ∈ jmEx.joins,
      ((aj.1.any fun a =>
          (keysOf [("related_attr", Value.vstr "x")]).contains a) = true
        ↔ ∃ a ∈ aj.1, a ∈ keysOf [("related_attr", Value.vstr "x")])) :=
  joinMap_applies_triggered_joins_in_order jmEx Query.select
    [("related_attr", Value.vstr "x")]

/-- **C9**: Every identity-taking operation of `DatabaseStorage` first
normalizes the identity to a tuple — a scalar is wrapped into a 1-tuple, a
sequence is converted to a tuple of the same components in order — so calling
an operation with the raw identity behaves identically to calling it with the
pre-normalized tuple (normalization is idempotent). -/
theorem identity_normalization_idempotent (st : DatabaseStorage)
    (db : List Entity) (i : Identity) (data : Entity) (params : Params) :
    convertIdentity (.seq (convertIdentity i)) = convertIdentity i ∧
    st.get db (.seq (convertIdentity i)) params = st.get db i params ∧
    st.put db (.seq (convertIdentity i)) data = st.put db i data ∧
    st.patch db (.seq (convertIdentity i)) data = st.patch db i data ∧
    st.delete db (.seq (convertIdentity i)) = st.delete db i ∧
    st.containsIdentity db (.seq (convertIdentity i))
      = st.containsIdentity db i := by
  cases i <;> exact ⟨rfl, rfl, rfl, rfl, rfl, rfl⟩

/-- **C2**: For every configured mapping object (filter, order-by,
null-filter, join, pagination) and every parameter bag whose key set is
disjoint from that mapping's configured keys (and, for order-by and
pagination, not containing the reserved parameter key), visit returns a query
equal to the input query, and no error is raised. -/
theorem visit_disjoint_params_returns_query_unchanged (q : Query)
    (params : Params) :
    (∀ fm : FilterMap, (∀ k ∈ keysOf params, k ∉ keysOf fm.filters) →
      fm.visit_statement q params = q) ∧
    (∀ om : OrderByMap, "order_by" ∉ keysOf params →
      om.visit_statement q params = .ok q) ∧
    (∀ nm : NullFilterMap, (∀ k ∈ keysOf params, k ∉ keysOf nm.filters) →
      nm.visit_statement q params = .ok q) ∧
    (∀ jm : JoinMap, (∀ aj ∈ jm.joins, ∀ a ∈ aj.1, a ∉ keysOf params) →
      jm.visit_statement q params = q) ∧
    (∀ pm : PaginationMap, pm.param_name ∉ keysOf params →
      pm.visit_statement q params = .ok q) := by
  refine ⟨?_, ?_, ?_, ?_, ?_⟩
  · intro fm hdis
    have hgen : fm.generate_whereclauses params = [] := by
      rw [FilterMap.generate_whereclauses]
      apply List.filterMap_eq_nil_iff.mpr
      intro kv hkv
      have hnm : kv.1 ∉ keysOf fm.filters :=
        hdis kv.1 (List.mem_map_of_mem Prod.fst hkv)
      rw [(lookupKey_eq_none_iff _ _).mpr hnm]
      rfl
    rw [FilterMap.visit_statement, hgen, Query.addWhere_nil]
  · intro om h
    have hl : lookupKey params "order_by" = none :=
      (lookupKey_eq_none_iff _ _).mpr h
    simp [OrderByMap.visit_statement, hl]
  · intro nm hdis
    have hsen : ∀ k v, (k, v) ∈ params → lookupKey nm.filters k ≠ none →
        v = .vstr nm.null_identifiers.1 ∨ v = .vstr nm.null_identifiers.2 := by
      intro k v hm hc
      exact absurd ((lookupKey_eq_none_iff _ _).mpr
        (hdis k (List.mem_map_of_mem Prod.fst hm))) hc
    have hgen : params.filterMap (fun kv =>
        (lookupKey nm.filters kv.1).map (fun col =>
          if kv.2 = .vstr nm.null_identifiers.1 then Pred.isNull col
          else Pred.isNotNull col)) = [] := by
      apply List.filterMap_eq_nil_iff.mpr
      intro kv hkv
      have hnm : kv.1 ∉ keysOf nm.filters :=
        hdis kv.1 (List.mem_map_of_mem Prod.fst hkv)
      rw [(lookupKey_eq_none_iff _ _).mpr hnm]
      rfl
    rw [NullFilterMap.visit_statement,
      generate_where_clauses_all_sentinels nm params hsen, hgen]
    simp [Except.map, Query.addWhere_nil]
  · intro jm hdis
    rw [joinMap_visit_eq]
    have hf : jm.joins.filter
        (fun aj => aj.1.any fun a => (keysOf params).contains a) = [] := by
      apply List.filter_eq_nil_iff.mpr
      intro aj haj
      simp only [List.any_eq_true, not_exists, not_and]
      intro a ha
      rw [contains_iff_mem]
      exact hdis aj haj a ha
    rw [hf]
    simp
  · intro pm h
    have hl : lookupKey params pm.param_name = none :=
      (lookupKey_eq_none_iff _ _).mpr h
    simp [PaginationMap.visit_statement, hl]

/-- Witness for **C2** at concrete inputs: a bag with an unrecognized key is
a no-op for each of the five concrete mapping objects. -/
theorem visit_disjoint_params_returns_query_unchanged_witness :
    fmEx.visit_statement Query.select [("zzz", Value.vstr "1")] = Query.select ∧
    omEx.visit_statement Query.select [("zzz", Value.vstr "1")] = .ok Query.select ∧
    nmEx.visit_statement Query.select [("zzz", Value.vstr "1")] = .ok Query.select ∧
    jmEx.visit_statement Query.select [("zzz", Value.vstr "1")] = Query.select ∧
    pagEx.visit_statement Query.select [("zzz", Value.vstr "1")] = .ok Query.select := by
  have h := visit_disjoint_params_returns_query_unchanged Query.select
    [("zzz", Value.vstr "1")]
  exact ⟨h.1 fmEx (by decide), h.2.1 omEx (by decide), h.2.2.1 nmEx (by decide),
    h.2.2.2.1 jmEx (by decide), h.2.2.2.2 pagEx (by decide)⟩

/-- **C1**: For every `FilterMap` configuration and every parameter bag,
`visit_statement` adds to the query exactly one predicate per key present in
both the bag and the configuration — each predicate being
`comparison_operator(resolved_attribute, provided_value)`, with the operator
defaulting to equality when the configuration value is a bare attribute
path — all predicates conjoined onto the where-clauses (nothing else on the
query changes); configured keys absent from the bag contribute no predicate,
and bag keys outside the configuration contribute no predicate. -/
theorem filterMap_adds_one_predicate_per_shared_key
    (module : NsObj) (cfg : List (String × FilterExpr)) (fm : FilterMap)
    (hmk : FilterMap.make module cfg = some fm)
    (hcd : (keysOf cfg).Nodup)
    (q : Query) (params : Params) :
    ∃ added : List Pred,
      fm.visit_statement q params
        = { q with whereClauses := q.whereClauses ++ added } ∧
      added.length
        = (params.filter (fun kv => decide (kv.1 ∈ keysOf cfg))).length ∧
      (∀ k v fe, (k, v) ∈ params → (k, fe) ∈ cfg →
        ∃ a, resolveAttr module fe.path = some a ∧ Pred.cmp fe.op a v ∈ added) ∧
      (∀ k v path, (k, v) ∈ params → (k, FilterExpr.attr path) ∈ cfg →
        ∃ a, resolveAttr module path = some a ∧ Pred.cmp Op.eq a v ∈ added) ∧
      (∀ p ∈ added, ∃ k v oa, (k, v) ∈ params ∧ k ∈ keysOf cfg ∧
        lookupKey fm.filters k = some oa ∧ p = Pred.cmp oa.1 oa.2 v) := by
  have hrc : resolveFilterCfg module cfg = some fm.filters := by
    cases hr : resolveFilterCfg module cfg with
    | none => rw [FilterMap.make, hr] at hmk; cases hmk
    | some fs =>
      rw [FilterMap.make, hr] at hmk
      simp only [Option.map_some', Option.some.injEq] at hmk
      rw [← hmk]
  have hkeys := resolveFilterCfg_keys module cfg fm.filters hrc
  refine ⟨fm.generate_whereclauses params, rfl, ?_, ?_, ?_, ?_⟩
  · rw [generate_whereclauses_length, hkeys]
  · intro k v fe hkv hkc
    rcases resolveFilterCfg_lookup module cfg fm.filters k fe hrc hkc hcd
        with ⟨a, ha, hl⟩
    exact ⟨a, ha, generate_whereclauses_mem fm params k v (fe.op, a) hkv hl⟩
  · intro k v path hkv hkc
    rcases resolveFilterCfg_lookup module cfg fm.filters k (.attr path) hrc hkc hcd
        with ⟨a, ha, hl⟩
    exact ⟨a, ha, generate_whereclauses_mem fm params k v (Op.eq, a) hkv hl⟩
  · intro p hp
    rcases generate_whereclauses_mem_inv fm params p hp with ⟨k, v, oa, hm, hl, hpe⟩
    have hkmem : k ∈ keysOf fm.filters := by
      rw [← lookupKey_isSome_iff, hl]
      rfl
    rw [hkeys] at hkmem
    exact ⟨k, v, oa, hm, hkmem, hl, hpe⟩

/-- Witness for **C1** at concrete inputs: `cfgEx` over `exModule` constructs
`fmEx`, and visiting with a bag holding one configured key and one unknown
key adds exactly one predicate. -/
theorem filterMap_adds_one_predicate_per_shared_key_witness :
    FilterMap.make exModule cfgEx = some fmEx ∧
    (keysOf cfgEx).Nodup ∧
    ∃ added : List Pred,
      fmEx.visit_statement Query.select pEx
        = { Query.select with
            whereClauses := Query.select.whereClauses ++ added } ∧
      added.length
        = (pEx.filter (fun kv => decide (kv.1 ∈ keysOf cfgEx))).length ∧
      (∀ k v fe, (k, v) ∈ pEx → (k, fe) ∈ cfgEx →
        ∃ a, resolveAttr exModule fe.path = some a ∧ Pred.cmp fe.op a v ∈ added) ∧
      (∀ k v path, (k, v) ∈ pEx → (k, FilterExpr.attr path) ∈ cfgEx →
        ∃ a, resolveAttr exModule path = some a ∧ Pred.cmp Op.eq a v ∈ added) ∧
      (∀ p ∈ added, ∃ k v oa, (k, v) ∈ pEx ∧ k ∈ keysOf cfgEx ∧
        lookupKey fmEx.filters k = some oa ∧ p = Pred.cmp oa.1 oa.2 v) :=
  ⟨by decide, by decide,
    filterMap_adds_one_predicate_per_shared_key exModule cfgEx fmEx
      (by decide) (by decide) Query.select pEx⟩

/-- **C3**: For every `OrderByMap` whose configuration maps every token of
the `order_by` parameter value, `visit_statement` splits the value on commas,
processes tokens left-to-right, treats a leading `-` as descending (stripped
before lookup) and its absence as ascending, and applies the resulting sort
expressions to the query in token order; in particular
`order_by="-a,b"` with configuration `[a ↦ ColA, b ↦ ColB]` yields the
expression sequence `[desc ColA, asc ColB]`. -/
theorem orderByMap_processes_tokens_left_to_right (om : OrderByMap) (q : Query)
    (s : String) (params : Params)
    (hp : lookupKey params "order_by" = some (.vstr s))
    (hall : ∀ tok ∈ pySplit ',' s,
      lookupKey om.order_by_attributes (parseToken tok).2 ≠ none) :
    (∃ es, om.visit_statement q params
        = .ok { q with orderBys := q.orderBys ++ es } ∧
      List.Forall₂ (fun tok e =>
        ∃ k, lookupKey om.order_by_attributes (parseToken tok).2 = some k ∧
          e = if (parseToken tok).1 then SortExpr.desc k else SortExpr.asc k)
        (pySplit ',' s) es) ∧
    (∀ (kA kB : OrderKey) (q2 : Query),
      OrderByMap.visit_statement ⟨[("a", kA), ("b", kB)]⟩ q2
        [("order_by", .vstr "-a,b")]
      = .ok (q2.addOrderBy [.desc kA, .asc kB])) := by
  constructor
  · rcases generate_order_by_all_mapped om (pySplit ',' s) hall with ⟨es, hes, hfa⟩
    refine ⟨es, ?_, hfa⟩
    simp [OrderByMap.visit_statement, hp, hes, Except.map, Query.addOrderBy]
  · intro kA kB q2
    rfl

/-- Witness for **C3** at concrete inputs: `omEx` maps both tokens of
`"-a,b"`, and the spec's particular instance evaluates as stated. -/
theorem orderByMap_processes_tokens_left_to_right_witness :
    (∀ tok ∈ pySplit ',' "-a,b",
      lookupKey omEx.order_by_attributes (parseToken tok).2 ≠ none) ∧
    OrderByMap.visit_statement ⟨[("a", OrderKey.label "A"), ("b", OrderKey.label "B")]⟩
      Query.select [("order_by", Value.vstr "-a,b")]
      = .ok (Query.select.addOrderBy [.desc (.label "A"), .asc (.label "B")]) :=
  ⟨by decide,
    (orderByMap_processes_tokens_left_to_right omEx Query.select "-a,b"
      [("order_by", Value.vstr "-a,b")] (by decide) (by decide)).2
      (.label "A") (.label "B") Query.select⟩

/-- **C4**: For every `OrderByMap` and every `order_by` value containing at
least one token (after prefix stripping) not present in the configuration,
`visit_statement` raises the `OrderByException` naming such a token, and the
query receives no order-by expressions at all — visit never returns a query,
so no partial order-by is applied. -/
theorem orderByMap_unknown_token_aborts (om : OrderByMap) (q : Query)
    (s : String) (params : Params)
    (hp : lookupKey params "order_by" = some (.vstr s))
    (hbad : ∃ tok ∈ pySplit ',' s,
      lookupKey om.order_by_attributes (parseToken tok).2 = none) :
    ∃ t ∈ pySplit ',' s,
      lookupKey om.order_by_attributes (parseToken t).2 = none ∧
      om.visit_statement q params
        = .error (.orderByException ("Unknown order_by attribute: "
            ++ (parseToken t).2)) ∧
      ∀ q2, om.visit_statement q params ≠ .ok q2 := by
  rcases generate_order_by_unknown om (pySplit ',' s) hbad with ⟨t, ht, htl, herr⟩
  refine ⟨t, ht, htl, ?_, ?_⟩
  · simp [OrderByMap.visit_statement, hp, herr, Except.map]
  · intro q2
    simp [OrderByMap.visit_statement, hp, herr, Except.map]

/-- Witness for **C4** at concrete inputs: `order_by="-a,unknown"` against
`omEx` raises the unknown-attribute error naming `unknown` and yields no
query. -/
theorem orderByMap_unknown_token_aborts_witness :
    lookupKey [("order_by", Value.vstr "-a,unknown")] "order_by"
      = some (Value.vstr "-a,unknown") ∧
    (∃ tok ∈ pySplit ',' "-a,unknown",
      lookupKey omEx.order_by_attributes (parseToken tok).2 = none) ∧
    ∃ t ∈ pySplit ',' "-a,unknown",
      lookupKey omEx.order_by_attributes (parseToken t).2 = none ∧
      omEx.visit_statement Query.select [("order_by", Value.vstr "-a,unknown")]
        = .error (.orderByException ("Unknown order_by attribute: "
            ++ (parseToken t).2)) ∧
      ∀ q2, omEx.visit_statement Query.select
        [("order_by", Value.vstr "-a,unknown")] ≠ .ok q2 :=
  ⟨by decide, by decide,
    orderByMap_unknown_token_aborts omEx Query.select "-a,unknown"
      [("order_by", Value.vstr "-a,unknown")] (by decide) (by decide)⟩

/-- **C5**: For every `NullFilterMap` and every configured key present in the
parameter bag: a value equal to the null sentinel yields an `IS NULL`
predicate on the resolved attribute, a value equal to the not-null sentinel
yields `IS NOT NULL`, and any other value makes visit raise the
`NullFilterException` whose message names both the key and the offending
value. -/
theorem nullFilterMap_sentinels_or_error (nm : NullFilterMap) (q : Query)
    (params : Params) :
    ((∀ k v, (k, v) ∈ params → lookupKey nm.filters k ≠ none →
        v = .vstr nm.null_identifiers.1 ∨ v = .vstr nm.null_identifiers.2) →
      ∃ added, nm.visit_statement q params
          = .ok { q with whereClauses := q.whereClauses ++ added } ∧
        (∀ k v col, (k, v) ∈ params → lookupKey nm.filters k = some col →
          v = .vstr nm.null_identifiers.1 → Pred.isNull col ∈ added) ∧
        (∀ k v col, (k, v) ∈ params → lookupKey nm.filters k = some col →
          v ≠ .vstr nm.null_identifiers.1 → v = .vstr nm.null_identifiers.2 →
          Pred.isNotNull col ∈ added)) ∧
    ((∃ k v, (k, v) ∈ params ∧ lookupKey nm.filters k ≠ none ∧
        v ≠ .vstr nm.null_identifiers.1 ∧ v ≠ .vstr nm.null_identifiers.2) →
      ∃ k v, (k, v) ∈ params ∧ lookupKey nm.filters k ≠ none ∧
        v ≠ .vstr nm.null_identifiers.1 ∧ v ≠ .vstr nm.null_identifiers.2 ∧
        nm.visit_statement q params
          = .error (.nullFilterException
              ("Unknown filter value: '" ++ v.pystr ++ "' for `" ++ k ++ "`"))) := by
  constructor
  · intro hsen
    refine ⟨params.filterMap (fun kv =>
        (lookupKey nm.filters kv.1).map (fun col =>
          if kv.2 = .vstr nm.null_identifiers.1 then Pred.isNull col
          else Pred.isNotNull col)), ?_, ?_, ?_⟩
    · rw [NullFilterMap.visit_statement,
        generate_where_clauses_all_sentinels nm params hsen]
      simp [Except.map, Query.addWhere]
    · intro k v col hm hl hv
      exact List.mem_filterMap.mpr ⟨(k, v), hm, by simp [hl, hv]⟩
    · intro k v col hm hl hv1 hv2
      exact List.mem_filterMap.mpr ⟨(k, v), hm, by simp [hl, hv1]⟩
  · intro hbad
    rcases generate_where_clauses_bad_value nm params hbad
        with ⟨k, v, hm, hc, h1, h2, herr⟩
    exact ⟨k, v, hm, hc, h1, h2,
      by simp [NullFilterMap.visit_statement, herr, Except.map]⟩

/-- Witness for **C5** at concrete inputs: `nmEx` with value `"null"` emits
`IS NULL` on the resolved attribute, and with value `"bogus"` raises the
error naming key and value. -/
theorem nullFilterMap_sentinels_or_error_witness :
    (∃ added, nmEx.visit_statement Query.select [("f", Value.vstr "null")]
        = .ok { Query.select with
            whereClauses := Query.select.whereClauses ++ added } ∧
      Pred.isNull (.atom "played_on") ∈ added) ∧
    nmEx.visit_statement Query.select [("f", Value.vstr "bogus")]
      = .error (.nullFilterException "Unknown filter value: 'bogus' for `f`") := by
  constructor
  · have hsen : ∀ k v, (k, v) ∈ [("f", Value.vstr "null")] →
        lookupKey nmEx.filters k ≠ none →
        v = .vstr nmEx.null_identifiers.1 ∨ v = .vstr nmEx.null_identifiers.2 := by
      intro k v hm _
      have h := List.mem_singleton.mp hm
      rw [Prod.mk.injEq] at h
      exact Or.inl (by rw [h.2]; rfl)
    rcases (nullFilterMap_sentinels_or_error nmEx Query.select
        [("f", Value.vstr "null")]).1 hsen with ⟨added, hok, hmem, _⟩
    exact ⟨added, hok, hmem "f" (Value.vstr "null") (.atom "played_on")
      (by decide) (by decide) (by decide)⟩
  · rcases (nullFilterMap_sentinels_or_error nmEx Query.select
        [("f", Value.vstr "bogus")]).2
        ⟨"f", Value.vstr "bogus", by decide, by decide, by decide, by decide⟩
      with ⟨k, v, hm, _, _, _, herr⟩
    have hk : k = "f" ∧ v = Value.vstr "bogus" := by
      rcases List.mem_singleton.mp hm with h
      exact ⟨congrArg Prod.fst h, congrArg Prod.snd h⟩
    rw [hk.1, hk.2] at herr
    exact herr

/-- **C6**: For every mapping object (FilterMap, OrderByMap, NullFilterMap,
JoinMap), if any configured dotted attribute path has a segment missing from
the supplied namespace, the constructor raises immediately at construction
time, and a successfully constructed mapping has every configured path
resolved (so no resolution error is deferred to visit time). -/
theorem constructors_fail_fast_on_unresolvable_paths (module : NsObj) :
    (∀ (cfg : List (String × FilterExpr)) k fe, (k, fe) ∈ cfg →
      resolveAttr module fe.path = none → FilterMap.make module cfg = none) ∧
    (∀ (cfg : List (String × FilterExpr)) fm,
      FilterMap.make module cfg = some fm →
      ∀ k fe, (k, fe) ∈ cfg → ∃ a, resolveAttr module fe.path = some a) ∧
    (∀ (cfg : List (String × String)) nids k path, (k, path) ∈ cfg →
      resolveAttr module path = none →
      NullFilterMap.make module cfg nids = none) ∧
    (∀ (cfg : List (String × String)) nids nm,
      NullFilterMap.make module cfg nids = some nm →
      ∀ k path, (k, path) ∈ cfg → ∃ a, resolveAttr module path = some a) ∧
    (∀ (cfg : List (List String × JoinExpr)) attrs je, (attrs, je) ∈ cfg →
      resolveAttr module je.path = none → JoinMap.make module cfg = none) ∧
    (∀ (cfg : List (List String × JoinExpr)) jm,
      JoinMap.make module cfg = some jm →
      ∀ attrs je, (attrs, je) ∈ cfg → ∃ a, resolveAttr module je.path = some a) ∧
    (∀ column model mattr, column.toList.contains '.' = true →
      pySplit '.' column = [model, mattr] →
      (module.getattr model = none ∨
        ∃ m, module.getattr model = some m ∧ m.getattr mattr = none) →
      resolveOrderColumn module column = none) ∧
    (∀ (cfg : List (String × String)) k column, (k, column) ∈ cfg →
      resolveOrderColumn module column = none →
      OrderByMap.make module cfg = none) ∧
    (∀ (cfg : List (String × String)) om, OrderByMap.make module cfg = some om →
      ∀ k column, (k, column) ∈ cfg →
      ∃ okey, resolveOrderColumn module column = some okey) := by
  refine ⟨?_, ?_, ?_, ?_, ?_, ?_, ?_, ?_, ?_⟩
  · intro cfg k fe hmem hnone
    have hent : resolveFilterEntry module (k, fe) = none := by
      rw [resolveFilterEntry, hnone]
      rfl
    simp [FilterMap.make, resolveFilterCfg,
      resolveEach_eq_none (resolveFilterEntry module) cfg (k, fe) hmem hent]
  · intro cfg fm hmk k fe hmem
    cases hr : resolveFilterCfg module cfg with
    | none => rw [FilterMap.make, hr] at hmk; cases hmk
    | some fs =>
      rcases resolveEach_some_mem _ cfg fs hr (k, fe) hmem with ⟨y, hy⟩
      cases hra : resolveAttr module fe.path with
      | none => rw [resolveFilterEntry, hra] at hy; cases hy
      | some a => exact ⟨a, rfl⟩
  · intro cfg nids k path hmem hnone
    have hent : (fun (kv : String × String) =>
        (resolveAttr module kv.2).map (fun a => (kv.1, a))) (k, path) = none := by
      simp only [hnone]
      rfl
    simp [NullFilterMap.make, resolveNullFilterCfg,
      resolveEach_eq_none (fun (kv : String × String) =>
        (resolveAttr module kv.2).map (fun a => (kv.1, a))) cfg (k, path) hmem hent]
  · intro cfg nids nm hmk k path hmem
    cases hr : resolveNullFilterCfg module cfg with
    | none => rw [NullFilterMap.make, hr] at hmk; cases hmk
    | some fs =>
      rcases resolveEach_some_mem _ cfg fs hr (k, path) hmem with ⟨y, hy⟩
      cases hra : resolveAttr module path with
      | none => rw [show resolveAttr module (k, path).2 = none from hra] at hy; cases hy
      | some a => exact ⟨a, rfl⟩
  · intro cfg attrs je hmem hnone
    have hent : (fun (aj : List String × JoinExpr) =>
        (resolveAttr module aj.2.path).map
          (fun a => (aj.1, (a, aj.2.extra)))) (attrs, je) = none := by
      simp only [hnone]
      rfl
    simp [JoinMap.make, resolveJoinCfg,
      resolveEach_eq_none (fun (aj : List String × JoinExpr) =>
        (resolveAttr module aj.2.path).map
          (fun a => (aj.1, (a, aj.2.extra)))) cfg (attrs, je) hmem hent]
  · intro cfg jm hmk attrs je hmem
    cases hr : resolveJoinCfg module cfg with
    | none => rw [JoinMap.make, hr] at hmk; cases hmk
    | some js =>
      rcases resolveEach_some_mem _ cfg js hr (attrs, je) hmem with ⟨y, hy⟩
      cases hra : resolveAttr module je.path with
      | none =>
        rw [show resolveAttr module (attrs, je).2.path = none from hra] at hy
        cases hy
      | some a => exact ⟨a, rfl⟩
  · intro column model mattr hdot hsplit hmiss
    rcases hmiss with hm | ⟨m, hm, hinner⟩
    · simp [resolveOrderColumn, hdot, hsplit, hm]
      exact (contains_iff_mem _ _).mp hdot
    · simp [resolveOrderColumn, hdot, hsplit, hm, hinner]
      exact (contains_iff_mem _ _).mp hdot
  · intro cfg k column hmem hnone
    have hent : (fun (kv : String × String) =>
        (resolveOrderColumn module kv.2).map (fun k2 => (kv.1, k2))) (k, column)
          = none := by
      simp only [hnone]
      rfl
    simp [OrderByMap.make, resolveOrderByCfg,
      resolveEach_eq_none (fun (kv : String × String) =>
        (resolveOrderColumn module kv.2).map (fun k2 => (kv.1, k2)))
        cfg (k, column) hmem hent]
  · intro cfg om hmk k column hmem
    cases hr : resolveOrderByCfg module cfg with
    | none => rw [OrderByMap.make, hr] at hmk; cases hmk
    | some rs =>
      rcases resolveEach_some_mem _ cfg rs hr (k, column) hmem with ⟨y, hy⟩
      cases hro : resolveOrderColumn module column with
      | none =>
        rw [show resolveOrderColumn module (k, column).2 = none from hro] at hy
        cases hy
      | some okey => exact ⟨okey, rfl⟩

/-- Witness for **C6** at concrete inputs: the unresolvable path
`"Game.missing"` makes each constructor fail, and the successfully
constructed `fmEx` has its configured paths resolved. -/
theorem constructors_fail_fast_on_unresolvable_paths_witness :
    FilterMap.make exModule [("x", FilterExpr.attr "Game.missing")] = none ∧
    NullFilterMap.make exModule [("x", "Game.missing")] ("null", "not-null") = none ∧
    JoinMap.make exModule [(["p"], JoinExpr.target "Game.missing")] = none ∧
    OrderByMap.make exModule [("x", "Game.missing")] = none ∧
    (∃ a, resolveAttr exModule "Game.type" = some a) := by
  have h := constructors_fail_fast_on_unresolvable_paths exModule
  exact ⟨h.1 _ "x" (FilterExpr.attr "Game.missing") (by decide) (by decide),
    h.2.2.1 _ ("null", "not-null") "x" "Game.missing" (by decide) (by decide),
    h.2.2.2.2.1 _ ["p"] (JoinExpr.target "Game.missing") (by decide) (by decide),
    h.2.2.2.2.2.2.2.1 _ "x" "Game.missing" (by decide) (by decide),
    h.2.1 cfgEx fmEx (by decide) "game_type" (FilterExpr.attr "Game.type")
      (by decide)⟩

/-- **C8**: `get(identity)` raises the Not-Found error when no entity with
that identity exists; `put(identity, data)` raises the Conflict error when an
entity with that identity already exists, with the store left unchanged (the
existence check precedes any persist); `patch(identity, data)` and
`delete(identity)` raise the Not-Found error when no entity with that
identity exists, with the store left unchanged. -/
theorem databaseStorage_error_contract (st : DatabaseStorage)
    (db : List Entity) (i : Identity) (data : Entity) :
    (st.containsIdentity db i = .ok false →
      st.get db i [] = .error .notFound ∧
      st.patch db i data = (.error .notFound, db) ∧
      st.delete db i = (.error .notFound, db)) ∧
    (st.containsIdentity db i = .ok true →
      st.put db i data = (.error .conflict, db)) := by
  constructor
  · intro h
    refine ⟨get_nil_params_of_contains_false st db i h, ?_, ?_⟩
    · simp [DatabaseStorage.patch, containsIdentity_norm, h]
    · simp [DatabaseStorage.delete, containsIdentity_norm, h]
  · intro h
    simp [DatabaseStorage.put, containsIdentity_norm, h]

/-- Witness for **C8** at concrete inputs: identity `"g2"` is absent from the
one-row table (get/patch/delete fail with Not-Found, table unchanged) and
identity `"g1"` is present (put fails with Conflict, table unchanged). -/
theorem databaseStorage_error_contract_witness :
    stEx.containsIdentity dbEx (.scalar (.vstr "g2")) = .ok false ∧
    stEx.get dbEx (.scalar (.vstr "g2")) [] = .error .notFound ∧
    stEx.patch dbEx (.scalar (.vstr "g2")) [] = (.error .notFound, dbEx) ∧
    stEx.delete dbEx (.scalar (.vstr "g2")) = (.error .notFound, dbEx) ∧
    stEx.containsIdentity dbEx (.scalar (.vstr "g1")) = .ok true ∧
    stEx.put dbEx (.scalar (.vstr "g1")) [] = (.error .conflict, dbEx) := by
  have h := databaseStorage_error_contract stEx dbEx (.scalar (.vstr "g2")) []
  have h2 := databaseStorage_error_contract stEx dbEx (.scalar (.vstr "g1")) []
  exact ⟨by decide, (h.1 (by decide)).1, (h.1 (by decide)).2.1,
    (h.1 (by decide)).2.2, by decide, h2.2 (by decide)⟩

/-- **C10**: `DatabaseStorage.get(identity, **params)` applies every
configured statement visitor, with `params` as the parameter bag, to the
identity-lookup query before executing it; consequently there are parameter
bags for which get raises Not-Found even though an entity with the given
identity exists in storage (here a configured `FilterMap` clause excludes the
row), while `get(identity)` with an empty bag succeeds — and the same
storage stripped of its visitors also succeeds on the very same bag. -/
theorem get_applies_visitors_and_can_exclude_existing_entity :
    ∃ (st : DatabaseStorage) (db : List Entity) (i : Identity)
      (params : Params) (e : Entity),
      st.statement_visitors ≠ [] ∧
      st.containsIdentity db i = .ok true ∧
      st.get db i params = .error .notFound ∧
      st.get db i [] = .ok e ∧
      DatabaseStorage.get ⟨st.entity, st.pk, []⟩ db i params = .ok e := by
  refine ⟨stVEx, dbEx, .scalar (.vstr "g1"), [("game_type", .vstr "B")],
    [("slug", .vstr "g1"), ("type", .vstr "A")], ?_, ?_, ?_, ?_, ?_⟩
  · intro hcon
    cases hcon
  · decide
  · decide
  · decide
  · decide

end AlchemicalStorage
